import Mathlib

/-!
Shallow embedding of the conversation-orchestration core of the
`backend-chatbot-tramtue` repository, and proofs about it.

The embedded modules are:
* `app/services/memory.py`    — `MemoryEngine` (category table, `_store_memory`,
  `update_memory`, `_extract_health_info`, the health part of
  `extract_and_store_memories`);
* `app/services/human_timing.py` — `HumanTimingService`
  (`calculate_typing_delay`, `_calculate_thinking_time`, `_calculate_pause_time`,
  `split_long_message`, `_split_by_words`, `determine_complexity`,
  `determine_typing_pattern`, `simulate_typing`, `_distribute_delay`);
* `app/services/orchestrator.py` — `Orchestrator._route_to_agent` and
  `Orchestrator.process_message`, with the external collaborators
  (database, generation model) passed in as resolved `Except` values.

Modelling conventions:
* Python `float` values are modelled as `ℚ` (exact arithmetic);
* Python strings are modelled as `List Char` (one element per Unicode scalar),
  with `String` used only at the record/API surface;
* Python `str.lower` is modelled for ASCII and for the Latin ranges used by
  Vietnamese (U+00C0–U+00DE, Latin Extended-A even codepoints, Latin Extended
  Additional even codepoints), which agree with Python on every string that
  appears in this repository;
* Python `str.split()`/`str.strip()` whitespace is modelled as the ASCII
  whitespace set, which agrees with Python on the strings of this repository;
* attribute lookups in `orchestrator.py` that name members which do not exist
  anywhere in the repository (`ConversationState.DISCOVERY`,
  `MemoryEngine.get_user_profile`, `MemoryEngine.get_context`,
  `MemoryEngine.process_interaction`, `db.get_recent_messages`,
  `db.create_handoff_request`, `DiscoveryAgent.process_response`) are modelled
  as raised `AttributeError`s (`PyErr` values), exactly where Python would
  raise them.
-/

/-! ## Basic Python string primitives -/

/-- Python whitespace test (`str.isspace` on the ASCII range): the characters
`' '`, `'\t'`, `'\n'`, `'\r'`, `'\x0b'`, `'\x0c'`. -/
def pyIsSpace (c : Char) : Bool :=
  c = ' ' || c = '\t' || c = '\n' || c = '\r' || c = '\x0b' || c = '\x0c'

/-- Python `str.lower` on one character, covering ASCII `A`–`Z`, the Latin-1
uppercase range U+00C0–U+00DE (excluding the multiplication sign U+00D7), and
the even (uppercase) codepoints of Latin Extended-A and Latin Extended
Additional; these ranges contain every Vietnamese uppercase letter. -/
def pyLowerChar (c : Char) : Char :=
  if 'A' ≤ c ∧ c ≤ 'Z' then Char.ofNat (c.toNat + 32)
  else if 0xC0 ≤ c.toNat ∧ c.toNat ≤ 0xDE ∧ c.toNat ≠ 0xD7 then Char.ofNat (c.toNat + 32)
  else if 0x100 ≤ c.toNat ∧ c.toNat ≤ 0x177 ∧ c.toNat % 2 = 0 then Char.ofNat (c.toNat + 1)
  else if 0x1E00 ≤ c.toNat ∧ c.toNat ≤ 0x1EFE ∧ c.toNat % 2 = 0 then Char.ofNat (c.toNat + 1)
  else c

/-- Python `str.lower` over a whole string. -/
def pyLower (l : List Char) : List Char := l.map pyLowerChar

/-- All whitespace characters removed (used to state "content up to
whitespace"). -/
def dropWs (l : List Char) : List Char := l.filter (fun c => !pyIsSpace c)

/-- Python `str.strip()`: drop whitespace from both ends. -/
def pyStrip (l : List Char) : List Char :=
  ((l.dropWhile pyIsSpace).reverse.dropWhile pyIsSpace).reverse

/-- Helper for `pySplitWs`: accumulate the current (reversed) word while
scanning. -/
def splitWsAux : List Char → List Char → List (List Char)
  | [], acc => if acc = [] then [] else [acc.reverse]
  | c :: cs, acc =>
    if pyIsSpace c then
      if acc = [] then splitWsAux cs [] else acc.reverse :: splitWsAux cs []
    else splitWsAux cs (c :: acc)

/-- Python `str.split()` with no argument: the maximal runs of non-whitespace
characters. -/
def pySplitWs (l : List Char) : List (List Char) := splitWsAux l []

/-- `pat` occurs as a contiguous substring of `l` (Python `pat in l`). -/
def strContains (l pat : List Char) : Bool :=
  match l with
  | [] => pat = []
  | _ :: cs => pat.isPrefixOf l || strContains cs pat

/-! ## MemoryEngine data model (`app/services/memory.py`) -/

/-- A Python value as stored in a memory fact. The memory engine only ever
stores strings, numbers, booleans and lists of strings (the allergy list), so
the list constructor carries strings. -/
inductive PyValue
  | str (s : String)
  | num (q : ℚ)
  | bool (b : Bool)
  | strlist (l : List String)
deriving DecidableEq

/-- One entry of `MemoryEngine.memory_categories`. -/
structure CategoryConfig where
  weight : ℚ
  confidence_threshold : ℚ
deriving DecidableEq

/-- The `memory_categories` dict of `MemoryEngine.__init__`
(`app/services/memory.py` lines 23–30). -/
def memory_categories (category : String) : Option CategoryConfig :=
  if category = "personal_info" then some ⟨1, 4/5⟩
  else if category = "preferences" then some ⟨9/10, 7/10⟩
  else if category = "health_info" then some ⟨1, 9/10⟩
  else if category = "purchase_history" then some ⟨4/5, 4/5⟩
  else if category = "communication_style" then some ⟨3/5, 3/5⟩
  else if category = "context" then some ⟨1/2, 1/2⟩
  else none

/-- A stored memory fact (the fields of `models.database.Memory` that the
memory engine reads and writes). -/
structure MemoryFact where
  user_id : String
  key : String
  value : PyValue
  confidence : ℚ
  weight : ℚ
  source : String
  needs_confirmation : Bool
deriving DecidableEq

/-- `MemoryEngine._store_memory` (`app/services/memory.py` lines 194–229):
look the category up in `memory_categories` with the default
`{"weight": 0.5, "confidence_threshold": 0.5}`, reject the candidate when its
confidence is strictly below the category threshold, otherwise store it with
the category's base weight. -/
def store_memory (user_id key : String) (value : PyValue) (confidence : ℚ)
    (source : String) (category : String) (needs_confirmation : Bool) :
    Option MemoryFact :=
  let category_config := (memory_categories category).getD ⟨1/2, 1/2⟩
  if confidence < category_config.confidence_threshold then none
  else some { user_id := user_id, key := key, value := value,
              confidence := confidence, weight := category_config.weight,
              source := source, needs_confirmation := needs_confirmation }

/-- `MemoryEngine.update_memory` (`app/services/memory.py` lines 132–166):
find the first stored fact with the given key; if found, merge
(`confidence = (old + new) / 2`, `weight = min(old + 0.1, 1.0)`, value and
source replaced, `needs_confirmation` kept); otherwise create a new fact via
`_store_memory` with its *default* category `"context"` and default
`needs_confirmation=False`. -/
def update_memory (memories : List MemoryFact) (user_id key : String)
    (value : PyValue) (confidence : ℚ) (source : String) : Option MemoryFact :=
  match memories.find? (fun m => m.key == key) with
  | some existing =>
      some { existing with
             value := value,
             confidence := (existing.confidence + confidence) / 2,
             weight := min (existing.weight + 1/10) 1,
             source := source }
  | none => store_memory user_id key value confidence source "context" false

/-! ## MemoryEngine extraction (`_extract_health_info`) -/

/-- The regex character class `[A-Za-zÀ-ỹ\s]` used by the allergy patterns:
ASCII letters, the Unicode range U+00C0 (`À`) to U+1EF9 (`ỹ`), or whitespace. -/
def allergyClassChar (c : Char) : Bool :=
  ('A' ≤ c && c ≤ 'Z') || ('a' ≤ c && c ≤ 'z') ||
  (0xC0 ≤ c.toNat && c.toNat ≤ 0x1EF9) || pyIsSpace c

/-- Match a literal pattern case-insensitively (re.IGNORECASE) at the head of
`l`; return the rest of `l` on success. -/
def matchLitIC : List Char → List Char → Option (List Char)
  | [], l => some l
  | _ :: _, [] => none
  | p :: ps, c :: cs =>
    if pyLowerChar p = pyLowerChar c then matchLitIC ps cs else none

/-- Greedily take the maximal run of `[A-Za-zÀ-ỹ\s]` characters
(the capture group `([A-Za-zÀ-ỹ\s]+)`, which ends each pattern). -/
def takeAllergyClass : List Char → List Char × List Char
  | [] => ([], [])
  | c :: cs =>
    if allergyClassChar c then
      let (a, b) := takeAllergyClass cs
      (c :: a, b)
    else ([], c :: cs)

/-- Try to match one allergy pattern — literal `pre`, then the optional
greedy literal `opt` (`(?:với )?`; `[]` when the pattern has no optional
part), then the non-empty greedy capture — at the head of `l`. On success
return the captured text and the remainder of `l` after the whole match. -/
def matchAllergyAt (pre opt l : List Char) : Option (List Char × List Char) :=
  match matchLitIC pre l with
  | none => none
  | some rest =>
    match matchLitIC opt rest with
    | some rest2 =>
      let (cap, rest3) := takeAllergyClass rest2
      if cap ≠ [] then some (cap, rest3)
      else
        let (cap2, rest4) := takeAllergyClass rest
        if cap2 ≠ [] then some (cap2, rest4) else none
    | none =>
      let (cap2, rest4) := takeAllergyClass rest
      if cap2 ≠ [] then some (cap2, rest4) else none

/-- `re.findall` for one allergy pattern: scan left to right, return the
captures of the non-overlapping matches, continuing each scan after the end
of the previous match. `fuel` bounds the recursion; `l.length + 1` steps
always suffice because every step either consumes a match or one character. -/
def findAllAllergy (pre opt : List Char) : Nat → List Char → List (List Char)
  | 0, _ => []
  | _ + 1, [] => []
  | fuel + 1, c :: cs =>
    match matchAllergyAt pre opt (c :: cs) with
    | some (cap, rest) => cap :: findAllAllergy pre opt fuel rest
    | none => findAllAllergy pre opt fuel cs

/-- The three allergy regexes of `_extract_health_info`
(`app/services/memory.py` lines 353–357), applied with `re.IGNORECASE` to the
raw text, captures collected in pattern order and then stripped. -/
def allergyCaptures (text : List Char) : List (List Char) :=
  let fuel := text.length + 1
  (findAllAllergy "dị ứng ".toList "với ".toList fuel text ++
   findAllAllergy "bị dị ứng ".toList [] fuel text ++
   findAllAllergy "không dùng được ".toList [] fuel text).map pyStrip

/-- The pregnancy keyword list of `_extract_health_info`. -/
def pregnancy_keywords : List (List Char) :=
  ["có thai".toList, "mang thai".toList, "bầu bí".toList,
   "thai kỳ".toList, "em bé".toList]

/-- The ordered skin-type table of `_extract_health_info`
(Python dict iteration follows insertion order). -/
def skin_types : List (List Char × String) :=
  [("da khô".toList, "dry"), ("da dầu".toList, "oily"),
   ("da hỗn hợp".toList, "combination"), ("da nhạy cảm".toList, "sensitive"),
   ("da thường".toList, "normal")]

/-- `MemoryEngine._extract_health_info` (`app/services/memory.py` lines
340–387): the extracted `health_info` dict as an insertion-ordered list of
`(key, value, confidence)` triples. Pregnancy and skin-type keywords are
tested against the lowercased text; the allergy regexes run on the raw text
with `re.IGNORECASE`. -/
def extract_health_info (text : List Char) : List (String × PyValue × ℚ) :=
  let lower := pyLower text
  let pregnancy :=
    if pregnancy_keywords.any (fun k => strContains lower k) then
      [("pregnancy_status", PyValue.bool true, (9 : ℚ)/10)]
    else []
  let allergies := allergyCaptures text
  let allergyEntry :=
    if allergies ≠ [] then
      [("allergies", PyValue.strlist (allergies.map (fun a => String.mk a)), (9 : ℚ)/10)]
    else []
  let skinEntry :=
    match skin_types.find? (fun p => strContains lower p.1) with
    | some p => [("skin_type", PyValue.str p.2, (4 : ℚ)/5)]
    | none => []
  pregnancy ++ allergyEntry ++ skinEntry

/-- The health-info storage loop of `MemoryEngine.extract_and_store_memories`
(`app/services/memory.py` lines 70–82): each extracted candidate is stored
under the key `"health_info." + key`, category `"health_info"`, with
`needs_confirmation=True`; candidates rejected by `_store_memory` are
dropped. -/
def store_health_infos (user_id : String) (source : String)
    (infos : List (String × PyValue × ℚ)) : List MemoryFact :=
  infos.filterMap (fun e =>
    store_memory user_id ("health_info." ++ e.1) e.2.1 e.2.2 source "health_info" true)

/-! ## HumanTimingService (`app/services/human_timing.py`) -/

/-- `MessageComplexity` enum. -/
inductive MessageComplexity
  | simple
  | medium
  | complex
deriving DecidableEq

/-- The `.value` string of a `MessageComplexity` member. -/
def MessageComplexity.value : MessageComplexity → String
  | .simple => "simple"
  | .medium => "medium"
  | .complex => "complex"

/-- `TypingPattern` enum. -/
inductive TypingPattern
  | fast
  | normal
  | slow
  | thinking
deriving DecidableEq

/-- The `.value` string of a `TypingPattern` member. -/
def TypingPattern.value : TypingPattern → String
  | .fast => "fast"
  | .normal => "normal"
  | .slow => "slow"
  | .thinking => "thinking"

/-- `self.typing_speeds` (words per minute). -/
def typing_speeds : TypingPattern → ℚ
  | .fast => 70
  | .normal => 50
  | .slow => 30
  | .thinking => 25

/-- The `complexity_factor` dict of `calculate_typing_delay`. -/
def complexity_factor : MessageComplexity → ℚ
  | .simple => 4/5
  | .medium => 1
  | .complex => 13/10

/-- The `base_thinking` dict of `_calculate_thinking_time`. -/
def base_thinking : MessageComplexity → ℚ
  | .simple => 1/5
  | .medium => 1/2
  | .complex => 1

/-- `self.thinking_words`. -/
def thinking_words : List (List Char) :=
  ["hmm".toList, "well".toList, "actually".toList, "let me think".toList,
   "you know".toList, "basically".toList, "essentially".toList,
   "obviously".toList, "clearly".toList]

/-- A sentence-terminating character for the `[.!?]+` regexes. -/
def isSentEnd (c : Char) : Bool := c = '.' || c = '!' || c = '?'

/-- Count the occurrences of one character (Python `str.count` for a
single-character argument). -/
def countOcc (l : List Char) (c : Char) : Nat := l.count c

/-- The delay-relevant features of a message, read off once so that
`calculate_typing_delay` is literally a function of them. Each field names the
quantity the source reads: `message.split()` length, the number of
`thinking_words` occurring in `message.lower()`, `'?' in message`,
`re.search(r'\d+', message)`, the counts of the five `pause_indicators`
(grouped by their coefficient), and `message.count('\n')`. -/
structure MsgFeatures where
  word_count : Nat
  thinking_count : Nat
  has_question : Bool
  has_digit : Bool
  sentence_end_count : Nat
  other_punct_count : Nat
  line_breaks : Nat
deriving DecidableEq

/-- Read the features of a message. -/
def msgFeatures (m : List Char) : MsgFeatures where
  word_count := (pySplitWs m).length
  thinking_count := (thinking_words.filter (fun w => strContains (pyLower m) w)).length
  has_question := m.contains '?'
  has_digit := m.any (fun c => c.isDigit)
  sentence_end_count := countOcc m '.' + countOcc m '!' + countOcc m '?'
  other_punct_count := countOcc m ':' + countOcc m ';'
  line_breaks := countOcc m '\n'

/-- Round half to even, the rounding mode of Python's built-in `round`. -/
def roundHalfEven (x : ℚ) : ℤ :=
  let n := ⌊x⌋
  let f := x - (n : ℚ)
  if f < 1/2 then n
  else if 1/2 < f then n + 1
  else if n % 2 = 0 then n else n + 1

/-- Python `round(x, 1)`. -/
def pyRound1 (x : ℚ) : ℚ := (roundHalfEven (x * 10) : ℚ) / 10

/-- The clamp `max(0.5, min(total, 8.0))` of `calculate_typing_delay`. -/
def clampDelay (x : ℚ) : ℚ := max (1/2) (min x 8)

/-- `calculate_typing_delay` as a function of the message features
(`app/services/human_timing.py` lines 55–156):
`typing = (word_count / wpm) * 60 * complexity_factor`;
`thinking = base_thinking + 0.3·(thinking words present) + 0.5 if '?' + 0.3 if digit`;
`pause = 0.3·(count of . ! ?) + 0.1·(count of : ;) + 0.2·(count of line breaks)`;
result `round(max(0.5, min(typing + thinking + pause, 8.0)), 1)`. -/
def calc_delay_from (f : MsgFeatures) (cx : MessageComplexity) (pt : TypingPattern) : ℚ :=
  let base_time : ℚ := ((f.word_count : ℚ) / typing_speeds pt) * 60
  let typing_time := base_time * complexity_factor cx
  let thinking_time := base_thinking cx + (f.thinking_count : ℚ) * (3/10)
      + (if f.has_question then (1 : ℚ)/2 else 0)
      + (if f.has_digit then (3 : ℚ)/10 else 0)
  let pause_time := (f.sentence_end_count : ℚ) * (3/10)
      + (f.other_punct_count : ℚ) * (1/10) + (f.line_breaks : ℚ) * (1/5)
  pyRound1 (clampDelay (typing_time + thinking_time + pause_time))

/-- `HumanTimingService.calculate_typing_delay` on a message. -/
def calculate_typing_delay (m : List Char) (cx : MessageComplexity) (pt : TypingPattern) : ℚ :=
  calc_delay_from (msgFeatures m) cx pt

/-- Helper for the `re.split(r'([.!?]+)', message)` model: one pass over the
text that alternates between collecting a text piece and collecting a
delimiter run (`inDelim`), with the current piece accumulated reversed in
`acc`. The produced list alternates text piece, delimiter run, text piece, …
starting and ending with a (possibly empty) text piece, exactly as `re.split`
with one capture group does. -/
def splitKeepAux : List Char → Bool → List Char → List (List Char)
  | [], inDelim, acc => if inDelim then [acc.reverse, []] else [acc.reverse]
  | c :: cs, inDelim, acc =>
    if isSentEnd c = inDelim then splitKeepAux cs inDelim (c :: acc)
    else acc.reverse :: splitKeepAux cs (!inDelim) [c]

/-- `re.split(r'([.!?]+)', message)`: the alternating text/delimiter pieces. -/
def splitSentsRaw (l : List Char) : List (List Char) := splitKeepAux l false []

/-- The pairing loop `for i in range(0, len(sentences), 2)` of
`split_long_message`: glue each text piece to the delimiter run that follows
it (`sentences[i] + sentences[i+1]`), keeping a trailing unpaired piece
as is. -/
def pairSents : List (List Char) → List (List Char)
  | [] => []
  | [t] => [t]
  | t :: d :: rest => (t ++ d) :: pairSents rest

/-- The pieces at even indices (what `re.split(r'[.!?]+', message)` — without
a capture group — returns). -/
def evenIdx : List (List Char) → List (List Char)
  | [] => []
  | [a] => [a]
  | a :: _ :: rest => a :: evenIdx rest

/-- One step of the word loop of `HumanTimingService._split_by_words`
(`app/services/human_timing.py` lines 219–232), acting on the state
`(chunks, current_chunk)`. -/
def sbwStep (max_length : Nat) (st : List (List Char) × List Char) (word : List Char) :
    List (List Char) × List Char :=
  let (chunks, current) := st
  if (current ++ ' ' :: word).length ≤ max_length then
    if current ≠ [] then (chunks, current ++ ' ' :: word) else (chunks, word)
  else
    if current ≠ [] then (chunks ++ [current], word)
    else (chunks ++ [word.take max_length], word.drop max_length)

/-- `HumanTimingService._split_by_words` (lines 212–237). -/
def split_by_words (text : List Char) (max_length : Nat) : List (List Char) :=
  let words := pySplitWs text
  let st := words.foldl (sbwStep max_length) ([], [])
  if st.2 ≠ [] then st.1 ++ [st.2] else st.1

/-- One step of the sentence loop of `HumanTimingService.split_long_message`
(lines 176–191), acting on the state `(chunks, current_chunk)`. -/
def slmStep (max_length : Nat) (st : List (List Char) × List Char) (sentence : List Char) :
    List (List Char) × List Char :=
  let (chunks, current) := st
  if (current ++ sentence).length ≤ max_length then (chunks, current ++ sentence)
  else if current ≠ [] then (chunks ++ [pyStrip current], sentence)
  else (chunks ++ split_by_words sentence max_length, [])

/-- `HumanTimingService.split_long_message` (lines 158–210) with its default
`preserve_sentences=True`: short messages are returned whole; otherwise the
sentence loop runs over the glued sentence pieces, the leftover
`current_chunk` is flushed stripped, and the final cleanup keeps
`chunk.strip()` for every chunk whose strip is non-empty. -/
def split_long_message (message : List Char) (max_length : Nat) : List (List Char) :=
  if message.length ≤ max_length then [message]
  else
    let sentences := pairSents (splitSentsRaw message)
    let st := sentences.foldl (slmStep max_length) ([], [])
    let chunks := if st.2 ≠ [] then st.1 ++ [pyStrip st.2] else st.1
    chunks.filterMap (fun c => let s := pyStrip c; if s = [] then none else some s)

/-- `HumanTimingService.determine_complexity` (lines 239–251):
`word_count = len(message.split())`,
`sentence_count = len([s for s in re.split(r'[.!?]+', message) if s.strip()])`. -/
def determine_complexity (m : List Char) : MessageComplexity :=
  let word_count := (pySplitWs m).length
  let sentence_count := ((evenIdx (splitSentsRaw m)).filter (fun s => pyStrip s ≠ [])).length
  if word_count ≤ 10 && sentence_count ≤ 1 then .simple
  else if word_count ≤ 50 && sentence_count ≤ 3 then .medium
  else .complex

/-- The `agent_patterns` dict of `determine_typing_pattern`, with the
`.get(agent_type, TypingPattern.NORMAL)` default. -/
def agent_base_pattern (agent_type : String) : TypingPattern :=
  if agent_type = "discovery" then .normal
  else if agent_type = "customer_service" then .fast
  else if agent_type = "sales" then .fast
  else if agent_type = "handoff_human" then .slow
  else if agent_type = "followup" then .normal
  else if agent_type = "general_chat" then .normal
  else .normal

/-- `HumanTimingService.determine_typing_pattern` (lines 253–275): the agent's
base pattern, escalated one step (fast → normal, normal → thinking) when the
message is complex. -/
def determine_typing_pattern (agent_type : String) (cx : MessageComplexity) : TypingPattern :=
  let base := agent_base_pattern agent_type
  if cx = MessageComplexity.complex then
    if base = TypingPattern.fast then .normal
    else if base = TypingPattern.normal then .thinking
    else base
  else base

/-- The timing dict returned by `simulate_typing`. -/
structure TimingData where
  total_delay : ℚ
  complexity : String
  pattern : String
  chunks : List (List Char)
deriving DecidableEq

/-- `HumanTimingService.simulate_typing` without a callback (lines 277–307):
determine complexity and pattern, compute the total delay, and split the
message with the default `max_length=200`. -/
def simulate_typing (message : List Char) (agent_type : String) : TimingData :=
  let cx := determine_complexity message
  let pt := determine_typing_pattern agent_type cx
  { total_delay := calculate_typing_delay message cx pt
    complexity := cx.value
    pattern := pt.value
    chunks := split_long_message message 200 }

/-- `HumanTimingService._distribute_delay` (lines 338–364): each non-last
chunk receives `total_delay * (len(chunk) / total_length)`; the last chunk
receives `max(0.1, total_delay - sum(former))`. A single-chunk list receives
`[total_delay]` unchanged. -/
def distribute_delay (chunks : List (List Char)) (total_delay : ℚ) : List ℚ :=
  if chunks = [] then []
  else if chunks.length = 1 then [total_delay]
  else
    let chunk_lengths := chunks.map List.length
    let total_length : ℚ := ((chunk_lengths.sum : ℕ) : ℚ)
    let delays := chunk_lengths.dropLast.map
      (fun len : ℕ => total_delay * ((len : ℚ) / total_length))
    let remaining := total_delay - delays.sum
    delays ++ [max (1/10) remaining]

/-! ## Orchestrator (`app/services/orchestrator.py`) -/

/-- `models.database.ConversationState`. Its members are `ACTIVE`, `HANDOFF`,
`COMPLETED`, `ARCHIVED`; there is **no** `DISCOVERY` member, although
`orchestrator._route_to_agent` line 215 refers to one. -/
inductive ConversationState
  | active
  | handoff
  | completed
  | archived
deriving DecidableEq

/-- The fields of `models.database.Conversation` that routing reads. -/
structure Conversation where
  user_id : String
  state : ConversationState
deriving DecidableEq

/-- `orchestrator.AgentDecision`. -/
inductive AgentDecision
  | discovery
  | customer_service
  | sales
  | handoff_human
  | followup
  | general_chat
deriving DecidableEq

/-- The `.value` string of an `AgentDecision` member. -/
def AgentDecision.value : AgentDecision → String
  | .discovery => "discovery"
  | .customer_service => "customer_service"
  | .sales => "sales"
  | .handoff_human => "handoff_human"
  | .followup => "followup"
  | .general_chat => "general_chat"

/-- The analysis dict produced by `_analyze_message`, with each key resolved
the way the router reads it (`analysis.get(...)` with the router's
defaults). -/
structure Analysis where
  type : String
  intent : String
  sentiment : String
  urgency : String
  entities : List String
  requires_human : Bool
deriving DecidableEq

/-- The fallback analysis `_analyze_message` returns on any generation or
parse failure (`app/services/orchestrator.py` lines 192–199). -/
def default_analysis : Analysis :=
  { type := "question", intent := "general_inquiry", sentiment := "neutral",
    urgency := "low", entities := [], requires_human := false }

/-- A raised Python exception. The `attr…` constructors are the
`AttributeError`s raised where `orchestrator.py` names attributes that do not
exist anywhere in the repository; `collaborator` is any error raised by an
external call (database, generation model). -/
inductive PyErr
  | attrConversationStateDiscovery
  | attrMemoryGetUserProfile
  | attrDbGetRecentMessages
  | attrMemoryGetContext
  | attrMemoryProcessInteraction
  | attrDbCreateHandoffRequest
  | attrDiscoveryProcessResponse
  | collaborator (message : String)
deriving DecidableEq

/-- `Orchestrator._route_to_agent` (`app/services/orchestrator.py` lines
201–249). The database lookup `db.get_conversation` is passed in as a
resolved `Except` value `conv`. Control flow follows the source exactly:

1. `requires_human` or `urgency == "high"` → `HANDOFF_HUMAN`, before anything
   else is consulted;
2. `if conversation and conversation.state == ConversationState.DISCOVERY`:
   when the conversation exists this evaluates `ConversationState.DISCOVERY`,
   a member that does not exist, so Python raises `AttributeError`; when the
   conversation is `None` the `and` short-circuits;
3. `type == "greeting"` → the call `self.memory_engine.get_user_profile(...)`
   raises `AttributeError` (`MemoryEngine` has no such method);
4. `type == "complaint"` → `CUSTOMER_SERVICE`;
5. `type == "purchase_intent"` or `"mua"`/`"giá"` in `intent.lower()` →
   `SALES`;
6. `type == "personal_info"` → `DISCOVERY`; `type == "followup"` →
   `FOLLOWUP`;
7. otherwise `self.db.get_recent_messages(...)` raises `AttributeError`
   (`DatabaseClient` only has `get_conversation_messages`). -/
def route_to_agent (conv : Except PyErr (Option Conversation)) (analysis : Analysis) :
    Except PyErr AgentDecision :=
  if analysis.requires_human || analysis.urgency == "high" then
    Except.ok AgentDecision.handoff_human
  else
    match conv with
    | Except.error e => Except.error e
    | Except.ok conversation =>
      match conversation with
      | some _ => Except.error PyErr.attrConversationStateDiscovery
      | none =>
        let message_type := analysis.type
        let intent := analysis.intent
        if message_type == "greeting" then
          Except.error PyErr.attrMemoryGetUserProfile
        else if message_type == "complaint" then
          Except.ok AgentDecision.customer_service
        else if message_type == "purchase_intent"
            || strContains (pyLower intent.toList) "mua".toList
            || strContains (pyLower intent.toList) "giá".toList then
          Except.ok AgentDecision.sales
        else if message_type == "personal_info" then
          Except.ok AgentDecision.discovery
        else if message_type == "followup" then
          Except.ok AgentDecision.followup
        else
          Except.error PyErr.attrDbGetRecentMessages

/-- The greeting-branch routing rule as the spec states it (spec §4.2 rule 3):
Discovery when the profile is absent or has fewer than 3 populated
`personal_info` facts, else GeneralChat. This is what
`orchestrator.py` lines 222–227 try to compute from
`user_profile.get("personal_info", {})`; `personal_info_count` stands for
`len(...)` (with an absent profile counted as `None`). -/
def greeting_route_spec (user_profile : Option Nat) : AgentDecision :=
  match user_profile with
  | none => AgentDecision.discovery
  | some personal_info_count =>
    if personal_info_count < 3 then AgentDecision.discovery
    else AgentDecision.general_chat

/-- The resolved outcomes of every external call `process_message` can make,
passed in so that the orchestration pipeline is a pure function of them. -/
structure Externals where
  analysis_raw : Except PyErr Analysis
  conv : Except PyErr (Option Conversation)
  rag_context : Except PyErr (List Char)
  agent_text : Except PyErr (List Char)

/-- `Orchestrator._analyze_message`: the external generation + JSON parse
outcome, with any failure absorbed into `default_analysis`
(lines 183–199). This function never fails. -/
def analyze_message (raw : Except PyErr Analysis) : Analysis :=
  match raw with
  | Except.ok a => a
  | Except.error _ => default_analysis

/-- `Orchestrator._process_with_agent` (lines 251–274), reduced to the
response text each branch produces. The handoff branch constructs a
`HandoffRequest` — a model that does not exist (`models.database` only
defines `Handoff`) — and calls `db.create_handoff_request`, a method that
does not exist, so it raises; the discovery branch calls
`discovery_agent.process_response`, also missing (`DiscoveryAgent` defines
`process_user_response`), so it raises; the remaining branches return the
external generation text. -/
def process_with_agent (ext : Externals) (agent : AgentDecision) :
    Except PyErr (List Char) :=
  match agent with
  | AgentDecision.handoff_human => Except.error PyErr.attrDbCreateHandoffRequest
  | AgentDecision.discovery => Except.error PyErr.attrDiscoveryProcessResponse
  | _ => ext.agent_text

/-- The response dict assembled by `process_message`. The success path of the
source never sets an `"error"` key; that absence is modelled as
`error = false`. -/
structure AgentResponse where
  response : List Char
  agent : String
  error : Bool
  typing_delay : ℚ
  message_complexity : String
  typing_pattern : String
  message_chunks : List (List Char)
deriving DecidableEq

/-- The `try` body of `Orchestrator.process_message` (lines 90–142): analyze,
route, fetch memory context (`self.memory_engine.get_context` — a method
that does not exist, so this step always raises `AttributeError`), fetch RAG
context for customer-service/sales, run the agent, compute timing with the
same `simulate_typing`, update memory (`process_interaction`, also missing),
and assemble the response with the timing fields. -/
def process_message_body (ext : Externals) : Except PyErr AgentResponse := do
  let analysis := analyze_message ext.analysis_raw
  let agent ← route_to_agent ext.conv analysis
  let _memory_context ← (Except.error PyErr.attrMemoryGetContext : Except PyErr (List Char))
  let _rag_context ←
    (if agent == AgentDecision.customer_service || agent == AgentDecision.sales then
      ext.rag_context
    else Except.ok [])
  let response_text ← process_with_agent ext agent
  let timing := simulate_typing response_text agent.value
  let _memories ← (Except.error PyErr.attrMemoryProcessInteraction : Except PyErr Unit)
  Except.ok
    { response := response_text
      agent := agent.value
      error := false
      typing_delay := timing.total_delay
      message_complexity := timing.complexity
      typing_pattern := timing.pattern
      message_chunks := timing.chunks }

/-- The fixed apology of the `except` handler of `process_message`
(line 148). -/
def fallback_message : String :=
  "Xin lỗi, tôi đang gặp một chút vấn đề. Bạn có thể thử lại không?"

/-- The response the `except` handler of `process_message` returns
(lines 144–162): the fixed apology run through the same `simulate_typing`
with agent type `"error_handler"`, flagged `error=True` and attributed to
`GENERAL_CHAT`. -/
def error_fallback_response : AgentResponse :=
  let timing := simulate_typing fallback_message.toList "error_handler"
  { response := fallback_message.toList
    agent := "general_chat"
    error := true
    typing_delay := timing.total_delay
    message_complexity := timing.complexity
    typing_pattern := timing.pattern
    message_chunks := timing.chunks }

/-- `Orchestrator.process_message` (lines 74–162): the `try` body with the
catch-all `except` substituting `error_fallback_response`. -/
def process_message (ext : Externals) : AgentResponse :=
  match process_message_body ext with
  | Except.ok r => r
  | Except.error _ => error_fallback_response

/-! ## Claim C1 — handoff rule precedence -/

/-- C1: for every analysis, if `requires_human` is true or `urgency` is
`"high"`, `_route_to_agent` returns `HANDOFF_HUMAN` regardless of the
conversation-state lookup (any outcome, including a raised database error or
any conversation state) and before any other routing rule is consulted. -/
theorem c1_handoff_precedence (conv : Except PyErr (Option Conversation))
    (analysis : Analysis)
    (h : analysis.requires_human = true ∨ analysis.urgency = "high") :
    route_to_agent conv analysis = Except.ok AgentDecision.handoff_human := by
  unfold route_to_agent
  rcases h with h | h <;> simp [h]

/-- Witness for C1: both triggers, at concrete inputs — `requires_human=true`
with the conversation lookup failing outright, and `urgency="high"` with an
active conversation present. -/
theorem c1_handoff_precedence_witness :
    route_to_agent (Except.error (PyErr.collaborator "db down"))
        { default_analysis with requires_human := true }
      = Except.ok AgentDecision.handoff_human ∧
    route_to_agent (Except.ok (some ⟨"u1", ConversationState.active⟩))
        { default_analysis with urgency := "high" }
      = Except.ok AgentDecision.handoff_human :=
  ⟨c1_handoff_precedence _ _ (Or.inl rfl), c1_handoff_precedence _ _ (Or.inr rfl)⟩

/-! ## Claim C2 — greeting routing (code bug) -/

/-- An analysis with type `"greeting"` on which neither the handoff rule nor
the conversation-state rule fires. -/
def greeting_analysis : Analysis :=
  { type := "greeting", intent := "say hi", sentiment := "positive",
    urgency := "low", entities := [], requires_human := false }

/-- C2 (code bug): the greeting rule of the claim can never produce a
decision. With no stored conversation, the router reaches the greeting branch
and raises `AttributeError` because `MemoryEngine` has no `get_user_profile`
method; with any stored conversation it raises even earlier, because
`ConversationState.DISCOVERY` (line 215) names an enum member that does not
exist. The last two conjuncts evaluate the rule the claim (and the greeting
branch's own code, lines 225–227) intends, for contrast. -/
theorem c2_greeting_route_raises :
    route_to_agent (Except.ok none) greeting_analysis
      = Except.error PyErr.attrMemoryGetUserProfile ∧
    route_to_agent (Except.ok (some ⟨"u1", ConversationState.active⟩)) greeting_analysis
      = Except.error PyErr.attrConversationStateDiscovery ∧
    greeting_route_spec (some 0) = AgentDecision.discovery ∧
    greeting_route_spec (some 3) = AgentDecision.general_chat :=
  ⟨rfl, rfl, rfl, rfl⟩

/-! ## Claim C7 — storage threshold -/

/-- C7: `_store_memory` rejects (returns `None`) exactly the candidates whose
confidence is strictly below the category's threshold, stores the others with
the category's fixed base weight, and the configured thresholds are
health_info 0.9, personal_info 0.8, purchase_history 0.8, preferences 0.7,
communication_style 0.6, context 0.5. -/
theorem c7_store_threshold (user_id key : String) (v : PyValue) (confidence : ℚ)
    (source category : String) (ncf : Bool) :
    (confidence < ((memory_categories category).getD ⟨1/2, 1/2⟩).confidence_threshold →
      store_memory user_id key v confidence source category ncf = none) ∧
    (((memory_categories category).getD ⟨1/2, 1/2⟩).confidence_threshold ≤ confidence →
      store_memory user_id key v confidence source category ncf =
        some { user_id := user_id, key := key, value := v, confidence := confidence,
               weight := ((memory_categories category).getD ⟨1/2, 1/2⟩).weight,
               source := source, needs_confirmation := ncf }) ∧
    memory_categories "health_info" = some ⟨1, 9/10⟩ ∧
    memory_categories "personal_info" = some ⟨1, 4/5⟩ ∧
    memory_categories "purchase_history" = some ⟨4/5, 4/5⟩ ∧
    memory_categories "preferences" = some ⟨9/10, 7/10⟩ ∧
    memory_categories "communication_style" = some ⟨3/5, 3/5⟩ ∧
    memory_categories "context" = some ⟨1/2, 1/2⟩ := by
  refine ⟨?_, ?_, rfl, rfl, rfl, rfl, rfl, rfl⟩
  · intro h
    simp only [store_memory]
    rw [if_pos h]
  · intro h
    simp only [store_memory]
    rw [if_neg (not_lt.mpr h)]

/-- Witness for C7: a health candidate at confidence 0.8 is rejected
(threshold 0.9); a context candidate at confidence 0.5 is stored with the
context base weight 0.5. -/
theorem c7_store_threshold_witness :
    store_memory "u1" "health_info.allergies" (PyValue.bool true) (4/5) "conv"
        "health_info" true = none ∧
    store_memory "u1" "context.note" (PyValue.str "x") (1/2) "conv" "context" false =
      some { user_id := "u1", key := "context.note", value := PyValue.str "x",
             confidence := 1/2,
             weight := ((memory_categories "context").getD ⟨1/2, 1/2⟩).weight,
             source := "conv", needs_confirmation := false } :=
  ⟨(c7_store_threshold "u1" "health_info.allergies" (PyValue.bool true) (4/5) "conv"
      "health_info" true).1 (by
        rw [show memory_categories "health_info" = some ⟨1, 9/10⟩ from rfl]
        norm_num [Option.getD_some]),
   (c7_store_threshold "u1" "context.note" (PyValue.str "x") (1/2) "conv"
      "context" false).2.1 (by
        rw [show memory_categories "context" = some ⟨1/2, 1/2⟩ from rfl]
        norm_num [Option.getD_some])⟩

/-! ## Claim C8 — update merge bounds -/

/-- C8: when a fact with the key exists, `update_memory` produces
`confidence = (old + new) / 2` and `weight = min(old + 0.1, 1.0)`, and for
inputs in [0,1] both results stay in [0,1]. -/
theorem c8_update_merge (memories : List MemoryFact) (user_id key : String)
    (v : PyValue) (confidence : ℚ) (source : String) (existing : MemoryFact)
    (hfind : memories.find? (fun m => m.key == key) = some existing)
    (hc0 : 0 ≤ existing.confidence) (hc1 : existing.confidence ≤ 1)
    (hw0 : 0 ≤ existing.weight) (hw1 : existing.weight ≤ 1)
    (hn0 : 0 ≤ confidence) (hn1 : confidence ≤ 1) :
    ∃ r, update_memory memories user_id key v confidence source = some r ∧
      r.confidence = (existing.confidence + confidence) / 2 ∧
      r.weight = min (existing.weight + 1/10) 1 ∧
      0 ≤ r.confidence ∧ r.confidence ≤ 1 ∧ 0 ≤ r.weight ∧ r.weight ≤ 1 := by
  refine ⟨{ existing with
      value := v
      confidence := (existing.confidence + confidence) / 2
      weight := min (existing.weight + 1/10) 1
      source := source }, ?_, rfl, rfl, ?_, ?_, ?_, ?_⟩
  · unfold update_memory
    rw [hfind]
  · simp only []
    linarith
  · simp only []
    linarith
  · exact le_min (by linarith) (by norm_num)
  · exact min_le_right _ _

/-- A concrete stored fact used by the C8 witness. -/
def c8_existing : MemoryFact :=
  { user_id := "u1", key := "preferences.budget_range", value := PyValue.num 500000,
    confidence := 4/5, weight := 9/10, source := "conversation",
    needs_confirmation := false }

/-- Witness for C8 at a concrete store: merging confidence 0.6 into an
existing fact with confidence 0.8 and weight 0.9. -/
theorem c8_update_merge_witness :
    ∃ r, update_memory [c8_existing] "u1" "preferences.budget_range"
        (PyValue.num 700000) (3/5) "update" = some r ∧
      r.confidence = (c8_existing.confidence + 3/5) / 2 ∧
      r.weight = min (c8_existing.weight + 1/10) 1 ∧
      0 ≤ r.confidence ∧ r.confidence ≤ 1 ∧ 0 ≤ r.weight ∧ r.weight ≤ 1 :=
  c8_update_merge [c8_existing] "u1" "preferences.budget_range"
    (PyValue.num 700000) (3/5) "update" c8_existing rfl
    (by norm_num [c8_existing]) (by norm_num [c8_existing])
    (by norm_num [c8_existing]) (by norm_num [c8_existing])
    (by norm_num) (by norm_num)

/-! ## Claim C10 — absent key falls back to the context category -/

/-- Evaluation of `_store_memory` at its default category `"context"`:
threshold 0.5 and weight 0.5. -/
theorem store_memory_context_eq (user_id key : String) (v : PyValue)
    (confidence : ℚ) (source : String) (ncf : Bool) :
    store_memory user_id key v confidence source "context" ncf
      = if confidence < 1/2 then none
        else some { user_id := user_id, key := key, value := v,
                    confidence := confidence, weight := 1/2, source := source,
                    needs_confirmation := ncf } := rfl

/-- C10: when no stored fact matches the key, `update_memory` creates the
fact through `_store_memory`'s default `"context"` configuration — threshold
0.5 and weight 0.5 — regardless of the category prefix inside the key
string. -/
theorem c10_update_absent_key (memories : List MemoryFact) (user_id key : String)
    (v : PyValue) (confidence : ℚ) (source : String)
    (habsent : ∀ m ∈ memories, m.key ≠ key) :
    update_memory memories user_id key v confidence source
      = store_memory user_id key v confidence source "context" false ∧
    ((1 : ℚ)/2 ≤ confidence →
      update_memory memories user_id key v confidence source =
        some { user_id := user_id, key := key, value := v, confidence := confidence,
               weight := 1/2, source := source, needs_confirmation := false }) ∧
    (confidence < 1/2 →
      update_memory memories user_id key v confidence source = none) := by
  have hfind : memories.find? (fun m => m.key == key) = none := by
    rw [List.find?_eq_none]
    intro m hm
    simpa using habsent m hm
  have hbase : update_memory memories user_id key v confidence source
      = store_memory user_id key v confidence source "context" false := by
    unfold update_memory
    rw [hfind]
  refine ⟨hbase, ?_, ?_⟩
  · intro h
    rw [hbase, store_memory_context_eq, if_neg (not_lt.mpr h)]
  · intro h
    rw [hbase, store_memory_context_eq, if_pos h]

/-- Witness for C10: updating the absent key
`"health_info.pregnancy_status"` at confidence 0.6 stores the fact with the
context weight 0.5 (the health_info configuration — threshold 0.9, weight
1.0 — is not applied). -/
theorem c10_update_absent_key_witness :
    update_memory [] "u1" "health_info.pregnancy_status" (PyValue.bool true)
        (3/5) "update" =
      some { user_id := "u1", key := "health_info.pregnancy_status",
             value := PyValue.bool true, confidence := 3/5, weight := 1/2,
             source := "update", needs_confirmation := false } :=
  (c10_update_absent_key [] "u1" "health_info.pregnancy_status"
    (PyValue.bool true) (3/5) "update" (by simp)).2.1 (by norm_num)

/-! ## Claim C9 — error fallback keeps pacing -/

/-- C9: whenever the pipeline body raises, `process_message` returns the
fixed apology run through the same `simulate_typing` (agent type
`"error_handler"`), carrying its timing fields and flagged `error=True`. -/
theorem c9_error_fallback (ext : Externals) (e : PyErr)
    (h : process_message_body ext = Except.error e) :
    process_message ext = error_fallback_response ∧
    (process_message ext).error = true ∧
    (process_message ext).response = fallback_message.toList ∧
    (process_message ext).agent = "general_chat" ∧
    (process_message ext).typing_delay
      = (simulate_typing fallback_message.toList "error_handler").total_delay ∧
    (process_message ext).message_complexity
      = (simulate_typing fallback_message.toList "error_handler").complexity ∧
    (process_message ext).typing_pattern
      = (simulate_typing fallback_message.toList "error_handler").pattern ∧
    (process_message ext).message_chunks
      = (simulate_typing fallback_message.toList "error_handler").chunks := by
  have hp : process_message ext = error_fallback_response := by
    unfold process_message
    rw [h]
  exact ⟨hp, by rw [hp]; rfl, by rw [hp]; rfl, by rw [hp]; rfl, by rw [hp]; rfl,
         by rw [hp]; rfl, by rw [hp]; rfl, by rw [hp]; rfl⟩

/-- Concrete collaborator outcomes for the C9 witness: every external call
succeeds; the body still raises (`db.get_recent_messages` does not exist, so
default routing of a plain question raises `AttributeError`). -/
def c9_externals : Externals :=
  { analysis_raw := Except.ok default_analysis
    conv := Except.ok none
    rag_context := Except.ok []
    agent_text := Except.ok "xin chào".toList }

/-- Witness for C9 at `c9_externals`. -/
theorem c9_error_fallback_witness :
    process_message c9_externals = error_fallback_response ∧
    (process_message c9_externals).error = true :=
  ⟨(c9_error_fallback c9_externals PyErr.attrDbGetRecentMessages rfl).1,
   (c9_error_fallback c9_externals PyErr.attrDbGetRecentMessages rfl).2.1⟩

/-! ## Claim C3 — the pregnancy/allergy scenario -/

/-- The scenario message of the claim. -/
def c3_text : List Char := "Tôi có thai và bị dị ứng với nước hoa".toList

/-- What `_extract_health_info` actually produces on the scenario text. -/
def c3_actual : List (String × PyValue × ℚ) :=
  [("pregnancy_status", PyValue.bool true, (9 : ℚ)/10),
   ("allergies", PyValue.strlist ["nước hoa", "với nước hoa"], (9 : ℚ)/10)]

/-- C3 counterexample: on "Tôi có thai và bị dị ứng với nước hoa" the
extraction does **not** produce `allergies = ["nước hoa"]` — the second
allergy regex `bị dị ứng ([A-Za-zÀ-ỹ\s]+)` also captures `"với nước hoa"`,
so the stored allergy list has two entries. -/
theorem c3_extraction_counterexample :
    extract_health_info c3_text ≠
      [("pregnancy_status", PyValue.bool true, (9 : ℚ)/10),
       ("allergies", PyValue.strlist ["nước hoa"], (9 : ℚ)/10)] := by
  have hx : extract_health_info c3_text = c3_actual := rfl
  rw [hx]
  intro h
  simp [c3_actual] at h

/-- C3 as amended: the extraction yields exactly
`pregnancy_status = True` (confidence 0.9) and
`allergies = ["nước hoa", "với nước hoa"]` (confidence 0.9); both pass the
health_info threshold 0.9 and both are stored with `needs_confirmation=True`
and the health_info base weight 1.0. -/
theorem c3_health_extraction_amended :
    extract_health_info c3_text = c3_actual ∧
    store_health_infos "u1" "conversation" (extract_health_info c3_text) =
      [{ user_id := "u1", key := "health_info.pregnancy_status",
         value := PyValue.bool true, confidence := 9/10, weight := 1,
         source := "conversation", needs_confirmation := true },
       { user_id := "u1", key := "health_info.allergies",
         value := PyValue.strlist ["nước hoa", "với nước hoa"],
         confidence := 9/10, weight := 1, source := "conversation",
         needs_confirmation := true }] := by
  have hx : extract_health_info c3_text = c3_actual := rfl
  have hs : ∀ (k : String) (v : PyValue),
      store_memory "u1" ("health_info." ++ k) v ((9 : ℚ)/10) "conversation"
          "health_info" true
        = some { user_id := "u1", key := "health_info." ++ k, value := v,
                 confidence := 9/10, weight := 1, source := "conversation",
                 needs_confirmation := true } := by
    intro k v
    unfold store_memory
    rw [show memory_categories "health_info" = some ⟨1, 9/10⟩ from rfl]
    rw [if_neg (by norm_num [Option.getD_some])]
    rfl
  refine ⟨hx, ?_⟩
  rw [hx]
  unfold store_health_infos c3_actual
  simp only [List.filterMap_cons, List.filterMap_nil]
  rw [hs "pregnancy_status" (PyValue.bool true),
      hs "allergies" (PyValue.strlist ["nước hoa", "với nước hoa"])]
  rfl

/-! ## Claim C4 — delay distribution -/

/-- The `total_length` of `_distribute_delay`, as a rational. -/
def totalLenQ (chunks : List (List Char)) : ℚ := (((chunks.map List.length).sum : ℕ) : ℚ)

/-- Sum of the proportional delays over a list of chunk lengths. -/
theorem sum_map_ratio (ls : List ℕ) (T L : ℚ) :
    (ls.map (fun len : ℕ => T * ((len : ℚ) / L))).sum = T * ((ls.sum : ℕ) : ℚ) / L := by
  induction ls with
  | nil => simp
  | cons a t ih =>
    rw [List.map_cons, List.sum_cons, ih, List.sum_cons]
    push_cast
    ring

/-- C4 counterexample: for the two chunks `["aaaaaaaaa", "b"]` and total delay
0.5 the distributed delays are `[0.45, 0.1]` — the last chunk's remainder
0.05 is floored to `max(0.1, ·) = 0.1` — so their sum is 0.55, not the total
delay 0.5 (and not within any floating tolerance of it). -/
theorem c4_distribute_counterexample :
    distribute_delay [List.replicate 9 'a', ['b']] (1/2) = [9/20, 1/10] ∧
    ((9 : ℚ)/20 + 1/10 ≠ 1/2) := by
  constructor
  · unfold distribute_delay
    rw [if_neg (by simp), if_neg (by simp)]
    simp only [List.map_cons, List.map_nil, List.length_replicate, List.length_cons,
      List.length_nil, List.dropLast, List.sum_cons, List.sum_nil]
    norm_num
  · norm_num

/-- Dropping the last element of a list extended by one element. -/
theorem dropLast_append_single {α : Type} (l : List α) (a : α) :
    (l ++ [a]).dropLast = l := by
  simp

/-- Structure of `_distribute_delay` on a chunk list with at least two
elements: each non-last chunk receives its proportional share and the last
receives `max(0.1, T - sum)`. -/
theorem distribute_delay_eq (i0 last : List Char) (irest : List (List Char)) (T : ℚ) :
    distribute_delay ((i0 :: irest) ++ [last]) T
      = ((i0 :: irest).map
          (fun c => T * ((c.length : ℚ) / totalLenQ ((i0 :: irest) ++ [last])))) ++
        [max (1/10) (T - ((i0 :: irest).map
          (fun c => T * ((c.length : ℚ) / totalLenQ ((i0 :: irest) ++ [last])))).sum)] := by
  unfold distribute_delay totalLenQ
  rw [if_neg (by simp), if_neg (by simp)]
  have hdl : ((i0 :: irest) ++ [last]).map List.length
      = ((i0 :: irest).map List.length) ++ [last.length] := by
    simp
  rw [hdl]
  simp only [dropLast_append_single, List.map_map]
  rfl

/-- C4 as amended: for a non-empty chunk list (written `init ++ [last]`)
whose chunks are all non-empty, `_distribute_delay` preserves the length,
returns `[T]` for a single chunk, gives every non-last chunk a positive
share when `T > 0`, and the delays sum to `T` **provided** the last chunk's
proportional share `T·len(last)/total_length` is at least 0.1 — otherwise
the last delay is floored at 0.1 and the sum exceeds `T`. -/
theorem c4_distribute_amended (init : List (List Char)) (last : List Char) (T : ℚ)
    (hlen : ∀ c ∈ init ++ [last], 1 ≤ c.length)
    (hlast : 1/10 ≤ T * (last.length : ℚ) / totalLenQ (init ++ [last])) :
    (distribute_delay (init ++ [last]) T).length = (init ++ [last]).length ∧
    (distribute_delay (init ++ [last]) T).sum = T ∧
    (0 < T → ∀ d ∈ (distribute_delay (init ++ [last]) T).dropLast, 0 < d) ∧
    distribute_delay [last] T = [T] := by
  have hsingle : distribute_delay [last] T = [T] := by
    unfold distribute_delay
    rw [if_neg (by simp), if_pos (by simp)]
  rcases init with _ | ⟨i0, irest⟩
  · simp only [List.nil_append]
    refine ⟨by rw [hsingle]; simp, by rw [hsingle]; simp, ?_, hsingle⟩
    intro _ d hd
    rw [hsingle] at hd
    simp at hd
  · set L : ℚ := totalLenQ ((i0 :: irest) ++ [last]) with hL
    set S : ℚ := ((((i0 :: irest).map List.length).sum : ℕ) : ℚ) with hS
    set ds : List ℚ :=
      (i0 :: irest).map (fun c => T * ((c.length : ℚ) / L)) with hds
    have hdd := distribute_delay_eq i0 last irest T
    rw [← hL, ← hds] at hdd
    have hLS : L = S + (last.length : ℚ) := by
      rw [hL, hS]
      unfold totalLenQ
      rw [List.map_append, List.sum_append]
      push_cast
      simp
    have hlast1 : 1 ≤ last.length := hlen last (by simp)
    have hLpos : 0 < L := by
      rw [hL]
      unfold totalLenQ
      have h1 : last.length ≤ (((i0 :: irest) ++ [last]).map List.length).sum := by
        refine List.single_le_sum (fun x _ => Nat.zero_le x) _ ?_
        exact List.mem_map_of_mem List.length (by simp)
      have h2 : 1 ≤ (((i0 :: irest) ++ [last]).map List.length).sum :=
        le_trans hlast1 h1
      exact_mod_cast h2
    have hmm : ds = ((i0 :: irest).map List.length).map (fun len : ℕ => T * ((len : ℚ) / L)) := by
      rw [hds, List.map_map]
      rfl
    have hdsum : ds.sum = T * S / L := by
      rw [hmm, hS]
      exact sum_map_ratio _ T L
    have hrem : T - ds.sum = T * (last.length : ℚ) / L := by
      rw [hdsum, hLS]
      have hLne : S + (last.length : ℚ) ≠ 0 := by
        rw [← hLS]
        exact ne_of_gt hLpos
      field_simp
      ring
    refine ⟨?_, ?_, ?_, hsingle⟩
    · rw [hdd]
      simp [hds]
    · rw [hdd, List.sum_append, List.sum_cons, List.sum_nil, add_zero]
      have hmax : max ((1 : ℚ)/10) (T - ds.sum) = T - ds.sum := by
        apply max_eq_right
        rw [hrem]
        exact hlast
      rw [hmax]
      ring
    · intro hT d hd
      rw [hdd, dropLast_append_single, hds] at hd
      rcases List.mem_map.mp hd with ⟨c, hcmem, hdef⟩
      have hc1 : 1 ≤ c.length := hlen c (List.mem_append_left _ hcmem)
      have hlpos : (0 : ℚ) < (c.length : ℚ) := by
        exact_mod_cast hc1
      rw [← hdef]
      exact mul_pos hT (div_pos hlpos hLpos)

/-- Witness for C4 at two concrete chunks of length 1 each and `T = 1`:
the last chunk's proportional share is `1·1/2 = 0.5 ≥ 0.1`. -/
theorem c4_distribute_amended_witness :
    (distribute_delay [['a'], ['b']] 1).length = 2 ∧
    (distribute_delay [['a'], ['b']] 1).sum = 1 ∧
    distribute_delay [['b']] 1 = [1] := by
  have h := c4_distribute_amended [['a']] ['b'] 1
    (by intro c hc; simp at hc; rcases hc with h | h <;> simp [h])
    (by unfold totalLenQ; norm_num)
  exact ⟨h.1, h.2.1, h.2.2.2⟩

/-! ## Claim C6 — delay bounds and monotonicity -/

/-- `roundHalfEven` never exceeds the floor plus one. -/
theorem roundHalfEven_le (x : ℚ) : roundHalfEven x ≤ ⌊x⌋ + 1 := by
  simp only [roundHalfEven]
  split_ifs <;> omega

/-- `roundHalfEven` is at least the floor. -/
theorem le_roundHalfEven (x : ℚ) : ⌊x⌋ ≤ roundHalfEven x := by
  simp only [roundHalfEven]
  split_ifs <;> omega

/-- Round-half-to-even is monotone. -/
theorem roundHalfEven_mono {x y : ℚ} (h : x ≤ y) :
    roundHalfEven x ≤ roundHalfEven y := by
  have hf : ⌊x⌋ ≤ ⌊y⌋ := Int.floor_le_floor h
  rcases lt_or_eq_of_le hf with hlt | heq
  · calc roundHalfEven x ≤ ⌊x⌋ + 1 := roundHalfEven_le x
      _ ≤ ⌊y⌋ := by omega
      _ ≤ roundHalfEven y := le_roundHalfEven y
  · have hxy : x - ((⌊x⌋ : ℤ) : ℚ) ≤ y - ((⌊x⌋ : ℤ) : ℚ) := by linarith
    simp only [roundHalfEven]
    rw [← heq]
    split_ifs <;> first | omega | linarith
  
/-- `roundHalfEven` at an integer. -/
theorem roundHalfEven_intCast (n : ℤ) : roundHalfEven (n : ℚ) = n := by
  simp only [roundHalfEven, Int.floor_intCast, sub_self]
  rw [if_pos (by norm_num)]

/-- Python `round(·, 1)` is monotone. -/
theorem pyRound1_mono {x y : ℚ} (h : x ≤ y) : pyRound1 x ≤ pyRound1 y := by
  unfold pyRound1
  have hz : roundHalfEven (x * 10) ≤ roundHalfEven (y * 10) :=
    roundHalfEven_mono (by linarith)
  apply (div_le_div_right (by norm_num : (0:ℚ) < 10)).mpr
  exact_mod_cast hz

/-- Python `round(·, 1)` maps `[0.5, 8]` into `[0.5, 8]`. -/
theorem pyRound1_bounds {x : ℚ} (h1 : 1/2 ≤ x) (h2 : x ≤ 8) :
    1/2 ≤ pyRound1 x ∧ pyRound1 x ≤ 8 := by
  have e1 : roundHalfEven ((1/2 : ℚ) * 10) = 5 := by
    rw [show ((1:ℚ)/2 * 10) = ((5 : ℤ) : ℚ) by norm_num, roundHalfEven_intCast]
  have e2 : roundHalfEven ((8 : ℚ) * 10) = 80 := by
    rw [show ((8:ℚ) * 10) = ((80 : ℤ) : ℚ) by norm_num, roundHalfEven_intCast]
  have l1 : (5 : ℤ) ≤ roundHalfEven (x * 10) := by
    rw [← e1]; exact roundHalfEven_mono (by linarith)
  have l2 : roundHalfEven (x * 10) ≤ 80 := by
    rw [← e2]; exact roundHalfEven_mono (by linarith)
  unfold pyRound1
  constructor
  · rw [le_div_iff (by norm_num : (0:ℚ) < 10)]
    calc (1:ℚ)/2 * 10 = ((5 : ℤ) : ℚ) := by norm_num
      _ ≤ _ := by exact_mod_cast l1
  · rw [div_le_iff (by norm_num : (0:ℚ) < 10)]
    calc ((roundHalfEven (x * 10) : ℤ) : ℚ) ≤ ((80 : ℤ) : ℚ) := by exact_mod_cast l2
      _ = 8 * 10 := by norm_num

/-- The clamp of `calculate_typing_delay` lands in `[0.5, 8]`. -/
theorem clampDelay_bounds (x : ℚ) : 1/2 ≤ clampDelay x ∧ clampDelay x ≤ 8 := by
  unfold clampDelay
  exact ⟨le_max_left _ _, max_le (by norm_num) (min_le_right _ _)⟩

/-- The clamp is monotone. -/
theorem clampDelay_mono {x y : ℚ} (h : x ≤ y) : clampDelay x ≤ clampDelay y :=
  max_le_max le_rfl (min_le_min h le_rfl)

/-- The composite `round(clamp(·), 1)` lands in `[0.5, 8]` on one decimal. -/
theorem round_clamp_bounds (x : ℚ) :
    1/2 ≤ pyRound1 (clampDelay x) ∧ pyRound1 (clampDelay x) ≤ 8 ∧
      ∃ k : ℤ, pyRound1 (clampDelay x) = (k : ℚ) / 10 := by
  obtain ⟨b1, b2⟩ := clampDelay_bounds x
  obtain ⟨r1, r2⟩ := pyRound1_bounds b1 b2
  exact ⟨r1, r2, roundHalfEven (clampDelay x * 10), rfl⟩

/-- C6: `calculate_typing_delay` always lands in `[0.5, 8.0]` and is an exact
multiple of 0.1 (one rounded decimal); holding pattern and complexity fixed,
it is monotone non-decreasing in the message's word count when the message's
other delay-relevant features (thinking phrases, question mark, digits,
punctuation counts, line breaks) are held fixed. -/
theorem c6_delay_bounds_mono (m1 m2 : List Char) (cx : MessageComplexity)
    (pt : TypingPattern)
    (hwc : (msgFeatures m1).word_count ≤ (msgFeatures m2).word_count)
    (h2 : (msgFeatures m1).thinking_count = (msgFeatures m2).thinking_count)
    (h3 : (msgFeatures m1).has_question = (msgFeatures m2).has_question)
    (h4 : (msgFeatures m1).has_digit = (msgFeatures m2).has_digit)
    (h5 : (msgFeatures m1).sentence_end_count = (msgFeatures m2).sentence_end_count)
    (h6 : (msgFeatures m1).other_punct_count = (msgFeatures m2).other_punct_count)
    (h7 : (msgFeatures m1).line_breaks = (msgFeatures m2).line_breaks) :
    (1/2 ≤ calculate_typing_delay m1 cx pt ∧ calculate_typing_delay m1 cx pt ≤ 8 ∧
      ∃ k : ℤ, calculate_typing_delay m1 cx pt = (k : ℚ) / 10) ∧
    calculate_typing_delay m1 cx pt ≤ calculate_typing_delay m2 cx pt := by
  constructor
  · unfold calculate_typing_delay
    simp only [calc_delay_from]
    exact round_clamp_bounds _
  · unfold calculate_typing_delay
    simp only [calc_delay_from]
    apply pyRound1_mono
    apply clampDelay_mono
    rw [h2, h3, h4, h5, h6, h7]
    have hsp : 0 < typing_speeds pt := by cases pt <;> norm_num [typing_speeds]
    have hcf : 0 < complexity_factor cx := by cases cx <;> norm_num [complexity_factor]
    have hwcq : (((msgFeatures m1).word_count : ℕ) : ℚ) ≤ ((msgFeatures m2).word_count : ℕ) := by
      exact_mod_cast hwc
    have htyping :
        ((msgFeatures m1).word_count : ℚ) / typing_speeds pt * 60 * complexity_factor cx
          ≤ ((msgFeatures m2).word_count : ℚ) / typing_speeds pt * 60 * complexity_factor cx := by
      apply mul_le_mul_of_nonneg_right _ (le_of_lt hcf)
      apply mul_le_mul_of_nonneg_right _ (by norm_num : (0:ℚ) ≤ 60)
      exact (div_le_div_right hsp).mpr hwcq
    linarith

/-- Witness for C6 on the concrete messages `"ab"` and `"ab cd"` (word counts
1 and 2, all other features equal and empty). -/
theorem c6_delay_bounds_mono_witness :
    (1/2 ≤ calculate_typing_delay "ab".toList MessageComplexity.medium TypingPattern.normal ∧
      calculate_typing_delay "ab".toList MessageComplexity.medium TypingPattern.normal ≤ 8 ∧
      ∃ k : ℤ, calculate_typing_delay "ab".toList MessageComplexity.medium TypingPattern.normal
        = (k : ℚ) / 10) ∧
    calculate_typing_delay "ab".toList MessageComplexity.medium TypingPattern.normal
      ≤ calculate_typing_delay "ab cd".toList MessageComplexity.medium TypingPattern.normal :=
  c6_delay_bounds_mono "ab".toList "ab cd".toList MessageComplexity.medium
    TypingPattern.normal (by decide) rfl rfl rfl rfl rfl rfl

/-! ## Claim C5 — content preservation of `split_long_message` -/

/-- `dropWs` distributes over append. -/
theorem dropWs_append (l1 l2 : List Char) :
    dropWs (l1 ++ l2) = dropWs l1 ++ dropWs l2 := by
  unfold dropWs
  exact List.filter_append _ _

/-- Dropping leading whitespace does not change the non-whitespace content. -/
theorem dropWs_dropWhile (l : List Char) :
    dropWs (l.dropWhile pyIsSpace) = dropWs l := by
  induction l with
  | nil => rfl
  | cons c cs ih =>
    by_cases hc : pyIsSpace c
    · rw [List.dropWhile_cons_of_pos hc, ih]
      unfold dropWs
      rw [List.filter_cons_of_neg (by simp [hc])]
    · rw [List.dropWhile_cons_of_neg hc]

/-- `dropWs` commutes with reversal. -/
theorem dropWs_reverse (l : List Char) : dropWs l.reverse = (dropWs l).reverse := by
  unfold dropWs
  exact List.filter_reverse _ _

/-- Stripping does not change the non-whitespace content. -/
theorem dropWs_pyStrip (l : List Char) : dropWs (pyStrip l) = dropWs l := by
  unfold pyStrip
  rw [dropWs_reverse, dropWs_dropWhile, dropWs_reverse, List.reverse_reverse,
    dropWs_dropWhile]

/-- A string whose strip is empty has no non-whitespace content. -/
theorem dropWs_eq_nil_of_pyStrip {l : List Char} (h : pyStrip l = []) :
    dropWs l = [] := by
  rw [← dropWs_pyStrip, h]
  rfl

/-- A string with no non-whitespace content strips to the empty string. -/
theorem pyStrip_eq_nil_of_dropWs {l : List Char} (h : dropWs l = []) :
    pyStrip l = [] := by
  have hall : ∀ c ∈ l, pyIsSpace c = true := by
    intro c hc
    have := List.filter_eq_nil.mp h c hc
    simpa using this
  unfold pyStrip
  rw [List.dropWhile_eq_nil_iff.mpr hall]
  rfl

/-- The words of `splitWsAux` concatenate to the accumulated prefix plus the
non-whitespace content of the rest. -/
theorem join_splitWsAux (l : List Char) :
    ∀ acc : List Char, (splitWsAux l acc).flatten = acc.reverse ++ dropWs l := by
  induction l with
  | nil =>
    intro acc
    unfold splitWsAux
    by_cases h : acc = []
    · simp [h, dropWs]
    · simp [h, dropWs]
  | cons c cs ih =>
    intro acc
    unfold splitWsAux
    by_cases hsp : pyIsSpace c
    · have hd : dropWs (c :: cs) = dropWs cs := by
        unfold dropWs
        rw [List.filter_cons_of_neg (by simp [hsp])]
      by_cases h : acc = [] <;> simp [hsp, h, ih, hd]
    · have hd : dropWs (c :: cs) = c :: dropWs cs := by
        unfold dropWs
        rw [List.filter_cons_of_pos (by simp [hsp])]
      simp [hsp, ih, hd]

/-- The words of `str.split()` concatenate to the non-whitespace content. -/
theorem join_pySplitWs (l : List Char) : (pySplitWs l).flatten = dropWs l := by
  unfold pySplitWs
  rw [join_splitWsAux]
  rfl

/-- Every word produced by `splitWsAux` is whitespace-free, provided the
accumulator is. -/
theorem wsFree_splitWsAux (l : List Char) :
    ∀ acc : List Char, (∀ c ∈ acc, pyIsSpace c = false) →
      ∀ w ∈ splitWsAux l acc, ∀ c ∈ w, pyIsSpace c = false := by
  induction l with
  | nil =>
    intro acc hacc w hw
    unfold splitWsAux at hw
    by_cases h : acc = []
    · simp [h] at hw
    · simp [h] at hw
      intro c hc
      rw [hw] at hc
      exact hacc c (List.mem_reverse.mp hc)
  | cons a cs ih =>
    intro acc hacc w hw
    unfold splitWsAux at hw
    by_cases hsp : pyIsSpace a
    · simp only [hsp, if_true] at hw
      by_cases h : acc = []
      · rw [if_pos h] at hw
        exact ih [] (by simp) w hw
      · rw [if_neg h] at hw
        rcases List.mem_cons.mp hw with hw1 | hw2
        · intro c hc
          rw [hw1] at hc
          exact hacc c (List.mem_reverse.mp hc)
        · exact ih [] (by simp) w hw2
    · simp only [hsp, if_false] at hw
      refine ih (a :: acc) ?_ w hw
      intro c hc
      rcases List.mem_cons.mp hc with h1 | h2
      · rw [h1]
        simpa using hsp
      · exact hacc c h2

/-- Every word of `str.split()` survives `dropWs` unchanged. -/
theorem dropWs_word_eq {t : List Char} {w : List Char} (hw : w ∈ pySplitWs t) :
    dropWs w = w := by
  unfold dropWs
  apply List.filter_eq_self.mpr
  intro c hc
  have := wsFree_splitWsAux t [] (by simp) w hw c hc
  simp [this]

/-- A leading blank disappears under `dropWs`. -/
theorem dropWs_space_cons (w : List Char) : dropWs (' ' :: w) = dropWs w := by
  unfold dropWs
  rw [List.filter_cons_of_neg (by simp [pyIsSpace])]

/-- One step of the word loop of `_split_by_words` preserves the
non-whitespace content and appends the word. -/
theorem sbwStep_content (max_length : Nat) (st : List (List Char) × List Char)
    (w : List Char) (hw : dropWs w = w) :
    dropWs ((sbwStep max_length st w).1.flatten ++ (sbwStep max_length st w).2)
      = dropWs (st.1.flatten ++ st.2) ++ w := by
  rcases st with ⟨chunks, current⟩
  simp only [sbwStep]
  by_cases hfit : (current ++ ' ' :: w).length ≤ max_length
  · rw [if_pos hfit]
    by_cases hcur : current ≠ []
    · rw [if_pos hcur]
      simp only [dropWs_append]
      rw [dropWs_space_cons, hw]
      simp [dropWs_append, List.append_assoc]
    · rw [if_neg hcur]
      rw [not_not.mp hcur]
      simp [dropWs_append, hw]
  · rw [if_neg hfit]
    by_cases hcur : current ≠ []
    · rw [if_pos hcur]
      simp only [List.flatten_append, List.flatten_cons, List.flatten_nil, List.append_nil]
      simp [dropWs_append, hw, List.append_assoc]
    · rw [if_neg hcur]
      rw [not_not.mp hcur]
      simp only [List.flatten_append, List.flatten_cons, List.flatten_nil, List.append_nil]
      rw [dropWs_append, dropWs_append, List.append_assoc, ← dropWs_append,
        List.take_append_drop, hw]

/-- The word fold of `_split_by_words` appends the words' content. -/
theorem sbwFold_content (max_length : Nat) (words : List (List Char)) :
    ∀ st : List (List Char) × List Char, (∀ w ∈ words, dropWs w = w) →
      dropWs ((words.foldl (sbwStep max_length) st).1.flatten
          ++ (words.foldl (sbwStep max_length) st).2)
        = dropWs (st.1.flatten ++ st.2) ++ words.flatten := by
  induction words with
  | nil =>
    intro st _
    simp
  | cons w ws ih =>
    intro st hws
    rw [List.foldl_cons, ih _ (fun x hx => hws x (List.mem_cons_of_mem w hx)),
      sbwStep_content max_length st w (hws w (List.mem_cons_self w ws)),
      List.flatten_cons, List.append_assoc]

/-- `_split_by_words` preserves the non-whitespace content. -/
theorem dropWs_join_split_by_words (t : List Char) (max_length : Nat) :
    dropWs (split_by_words t max_length).flatten = dropWs t := by
  have hfold := sbwFold_content max_length (pySplitWs t) ([], [])
    (fun w hw => dropWs_word_eq hw)
  simp only [List.flatten_nil, List.nil_append] at hfold
  rw [join_pySplitWs] at hfold
  have h0 : dropWs ([] : List Char) = [] := rfl
  rw [h0, List.nil_append] at hfold
  simp only [split_by_words]
  split_ifs with hcur
  · rw [List.flatten_append, List.flatten_cons, List.flatten_nil, List.append_nil]
    exact hfold
  · have h2 : ((pySplitWs t).foldl (sbwStep max_length) ([], [])).2 = [] :=
      not_not.mp hcur
    rw [← hfold, h2, List.append_nil]

/-- `splitKeepAux` pieces concatenate back to the accumulated prefix plus the
rest of the text. -/
theorem join_splitKeepAux (l : List Char) :
    ∀ (inDelim : Bool) (acc : List Char),
      (splitKeepAux l inDelim acc).flatten = acc.reverse ++ l := by
  induction l with
  | nil =>
    intro inDelim acc
    unfold splitKeepAux
    by_cases h : inDelim <;> simp [h]
  | cons c cs ih =>
    intro inDelim acc
    unfold splitKeepAux
    by_cases h : isSentEnd c = inDelim
    · simp [h, ih]
    · simp [h, ih]

/-- The `re.split(r'([.!?]+)', ·)` pieces concatenate back to the text. -/
theorem join_splitSentsRaw (l : List Char) : (splitSentsRaw l).flatten = l := by
  unfold splitSentsRaw
  rw [join_splitKeepAux]
  rfl

/-- Gluing text pieces to their delimiters keeps the concatenation. -/
theorem join_pairSents : ∀ ps : List (List Char), (pairSents ps).flatten = ps.flatten
  | [] => rfl
  | [t] => by simp [pairSents]
  | t :: d :: rest => by
    simp only [pairSents, List.flatten_cons]
    rw [join_pairSents rest, List.append_assoc]

/-- One step of the sentence loop of `split_long_message` preserves the
non-whitespace content. -/
theorem slmStep_content (max_length : Nat) (st : List (List Char) × List Char)
    (s : List Char) :
    dropWs ((slmStep max_length st s).1.flatten ++ (slmStep max_length st s).2)
      = dropWs (st.1.flatten ++ st.2 ++ s) := by
  rcases st with ⟨chunks, current⟩
  simp only [slmStep]
  by_cases hfit : (current ++ s).length ≤ max_length
  · rw [if_pos hfit]
    simp [dropWs_append, List.append_assoc]
  · rw [if_neg hfit]
    by_cases hcur : current ≠ []
    · rw [if_pos hcur]
      simp only [List.flatten_append, List.flatten_cons, List.flatten_nil, List.append_nil]
      simp [dropWs_append, dropWs_pyStrip, List.append_assoc]
    · rw [if_neg hcur]
      rw [not_not.mp hcur]
      simp only [List.flatten_append]
      rw [List.append_nil, dropWs_append, dropWs_join_split_by_words]
      simp [dropWs_append]

/-- The sentence fold of `split_long_message` preserves the non-whitespace
content. -/
theorem slmFold_content (max_length : Nat) (ss : List (List Char)) :
    ∀ st : List (List Char) × List Char,
      dropWs ((ss.foldl (slmStep max_length) st).1.flatten
          ++ (ss.foldl (slmStep max_length) st).2)
        = dropWs (st.1.flatten ++ st.2 ++ ss.flatten) := by
  induction ss with
  | nil =>
    intro st
    simp
  | cons s rest ih =>
    intro st
    rw [List.foldl_cons, ih, dropWs_append, slmStep_content, ← dropWs_append]
    simp [List.append_assoc]

/-- The final cleanup (`[chunk.strip() for chunk in chunks if chunk.strip()]`)
preserves the non-whitespace content. -/
theorem dropWs_join_cleanup (chunks : List (List Char)) :
    dropWs (chunks.filterMap
      (fun c => let s := pyStrip c; if s = [] then none else some s)).flatten
      = dropWs chunks.flatten := by
  induction chunks with
  | nil => rfl
  | cons c cs ih =>
    by_cases h : pyStrip c = []
    · simp [List.filterMap_cons, h, List.flatten_cons, dropWs_append,
        dropWs_eq_nil_of_pyStrip h, ih]
    · simp [List.filterMap_cons, h, List.flatten_cons, dropWs_append,
        dropWs_pyStrip, ih]

/-- The overlong-sentence message used by the C5 counterexample. -/
def c5_msg : List Char := "aaa. bbbb bbbb bbb. cc.".toList

/-- C5 counterexample, two parts. (1) A message within `max_length` is
returned verbatim, so a whitespace-only message yields a whitespace-only
chunk. (2) With `max_length = 10`, the sentence `" bbbb bbbb bbb."` displaces
the non-empty accumulated chunk `"aaa."`, is carried as the new
`current_chunk`, and is later flushed whole: the returned chunk
`"bbbb bbbb bbb."` has 14 characters — beyond `max_length` — yet is not a
single overlong word (it contains spaces and each of its words is within
`max_length`), so the overflow was avoidable by word-splitting. -/
theorem c5_split_counterexample :
    split_long_message "   ".toList 200 = ["   ".toList] ∧
    dropWs "   ".toList = [] ∧
    split_long_message c5_msg 10
      = ["aaa.".toList, "bbbb bbbb bbb.".toList, "cc.".toList] ∧
    10 < "bbbb bbbb bbb.".toList.length ∧
    (∀ w ∈ pySplitWs "bbbb bbbb bbb.".toList, w.length ≤ 10) ∧
    "bbbb bbbb bbb.".toList.any pyIsSpace = true := by
  refine ⟨by decide, by decide, by decide, by decide, by decide, by decide⟩

/-- C5 as amended: `split_long_message` drops no content — the concatenation
of the returned chunks equals the original message after all whitespace is
removed; a message within `max_length` is returned verbatim as the single
chunk (even when empty or whitespace-only); and for messages longer than
`max_length` the output contains no empty and no whitespace-only chunks. (A
chunk may still exceed `max_length`: see the counterexample.) -/
theorem c5_split_message_amended (message : List Char) (max_length : Nat) :
    dropWs (split_long_message message max_length).flatten = dropWs message ∧
    (message.length ≤ max_length → split_long_message message max_length = [message]) ∧
    (max_length < message.length →
      ∀ s ∈ split_long_message message max_length, s ≠ [] ∧ dropWs s ≠ []) := by
  by_cases hlen : message.length ≤ max_length
  · refine ⟨?_, fun _ => by unfold split_long_message; rw [if_pos hlen],
      fun hcon => absurd hlen (not_le.mpr hcon)⟩
    unfold split_long_message
    rw [if_pos hlen]
    simp
  · have hfold := slmFold_content max_length (pairSents (splitSentsRaw message)) ([], [])
    rw [join_pairSents, join_splitSentsRaw] at hfold
    simp only [List.flatten_nil, List.nil_append] at hfold
    refine ⟨?_, fun hc => absurd hc hlen, ?_⟩
    · simp only [split_long_message]
      rw [if_neg hlen, dropWs_join_cleanup]
      split_ifs with hcur
      · rw [List.flatten_append, List.flatten_cons, List.flatten_nil,
          List.append_nil, dropWs_append, dropWs_pyStrip, ← dropWs_append]
        exact hfold
      · have h2 : ((pairSents (splitSentsRaw message)).foldl
            (slmStep max_length) ([], [])).2 = [] := not_not.mp hcur
        rw [h2, List.append_nil] at hfold
        exact hfold
    · intro _ s hs
      simp only [split_long_message] at hs
      rw [if_neg hlen] at hs
      rcases List.mem_filterMap.mp hs with ⟨c, _, hfc⟩
      by_cases h : pyStrip c = []
      · simp [h] at hfc
      · simp only [h, if_neg, ite_false] at hfc
        have hsc : pyStrip c = s := by
          by_cases h2 : s = pyStrip c
          · rw [h2]
          · simp [h] at hfc
            exact hfc
        rw [← hsc]
        refine ⟨h, ?_⟩
        intro hd
        rw [dropWs_pyStrip] at hd
        exact h (pyStrip_eq_nil_of_dropWs hd)

/-- Witness for C5 on the message `"abcde. fg."` (10 characters) at
`max_length = 4`, plus the short-message case on `"ab"`. -/
theorem c5_split_message_amended_witness :
    dropWs (split_long_message "abcde. fg.".toList 4).flatten
      = dropWs "abcde. fg.".toList ∧
    (∀ s ∈ split_long_message "abcde. fg.".toList 4, s ≠ [] ∧ dropWs s ≠ []) ∧
    split_long_message "ab".toList 4 = ["ab".toList] :=
  ⟨(c5_split_message_amended "abcde. fg.".toList 4).1,
   (c5_split_message_amended "abcde. fg.".toList 4).2.2 (by decide),
   (c5_split_message_amended "ab".toList 4).2.1 (by decide)⟩
